import Mathlib

/-!
Verification of the Flush+Reload cache-timing detector in
`trusted_os_usbarmory/internal/cache_timer.go` (function `CacheTimerDemo`
and its helpers `accessByte`, `simulateVictimAccess`, `flushReload`),
with the PMU primitives of `internal/pmu_arm.s`.

Shallow embedding conventions:
* The hardware cycle counter (`readPMUCycleCounter`, a `uint32` PMU read)
  is modelled by a free-running natural-number counter read modulo 2^32.
* The latency of a single memory read is external hardware behaviour; it
  is supplied by a `LatencyOracle`, a function of the index of the read
  (how many reads happened before) and of whether the target address is
  currently in the data cache.  A deterministic stub is the constant case
  `constLat hit miss`.
* Go `uint32` subtraction `end - start` is `sub32`; `uint64` accumulation
  is arithmetic modulo 2^64.
* Go `float64` arithmetic (averages, threshold, percentage) is modelled
  by exact rational arithmetic.
-/

namespace CacheTimer

/-- Number of cycles the k-th memory read takes, given whether the target
address is in the data cache at that moment.  Stands for the external
cache/DRAM timing behaviour. -/
def LatencyOracle : Type := ℕ → Bool → ℕ

/-- Deterministic timing stub: every cached read costs `hit` cycles, every
uncached read costs `miss` cycles. -/
def constLat (hit miss : ℕ) : LatencyOracle := fun _ cached => if cached then hit else miss

/-- Machine state visible to the embedded code: per-address data-cache
presence, byte memory, the free-running PMU cycle counter (kept unreduced;
reads truncate to 32 bits), and the number of memory reads performed so
far (the oracle index). -/
structure Machine where
  cached : ℕ → Bool
  mem : ℕ → ℕ
  counter : ℕ
  reads : ℕ

/-- pmu_arm.s, `readPMUCycleCounter`: MRC of PMCCNTR, a 32-bit counter. -/
def readPMUCycleCounter (m : Machine) : ℕ := m.counter % 4294967296

/-- tamago `cpu.FlushDataCache()`: evicts the entire data cache. -/
def flushDataCache (m : Machine) : Machine := { m with cached := fun _ => false }

/-- Data synchronization barrier; in this single-threaded model it does not
change the observable state. -/
def dsb (m : Machine) : Machine := m

/-- cache_timer.go lines 28-30, `accessByte(ptr)`: performs one memory read
at `addr`, returning the byte.  The read brings `addr` into the cache,
advances the cycle counter by the latency the oracle gives this read, and
increments the read index. -/
def accessByte (L : LatencyOracle) (m : Machine) (addr : ℕ) : ℕ × Machine :=
  (m.mem addr,
   { cached := fun a => if a = addr then true else m.cached a
     mem := m.mem
     counter := m.counter + L m.reads (m.cached addr)
     reads := m.reads + 1 })

/-- Go `uint32` subtraction `end - start` for already-reduced operands:
`(end - start) mod 2^32`. -/
def sub32 (e s : ℕ) : ℕ := (4294967296 + e - s) % 4294967296

/-- cache_timer.go lines 59-63, `simulateVictimAccess(ptr, shouldAccess)`:
reads `addr` iff `shouldAccess`. -/
def simulateVictimAccess (L : LatencyOracle) (m : Machine) (addr : ℕ) (shouldAccess : Bool) :
    Machine :=
  if shouldAccess then (accessByte L m addr).2 else m

/-- Accumulator state of the calibration loop: the machine plus the two
`uint64` sums (lines 106, 118, 126). -/
structure CalibState where
  m : Machine
  hitSum : ℕ
  missSum : ℕ

/-- One iteration of the calibration loop, cache_timer.go lines 109-127:
prime, dsb, timed access (hit); flush, dsb, timed access (miss); each
`uint32` duration widened and added to its `uint64` sum. -/
def calibIter (L : LatencyOracle) (addr : ℕ) (s : CalibState) : CalibState :=
  let m0 := (accessByte L s.m addr).2
  let m1 := dsb m0
  let start1 := readPMUCycleCounter m1
  let m2 := (accessByte L m1 addr).2
  let end1 := readPMUCycleCounter m2
  let hitSum := (s.hitSum + sub32 end1 start1) % 18446744073709551616
  let m3 := flushDataCache m2
  let m4 := dsb m3
  let start2 := readPMUCycleCounter m4
  let m5 := (accessByte L m4 addr).2
  let end2 := readPMUCycleCounter m5
  let missSum := (s.missSum + sub32 end2 start2) % 18446744073709551616
  ⟨m5, hitSum, missSum⟩

/-- The calibration loop, `for i := 0; i < calibSamples; i++`, run
`n` times. -/
def calibLoop (L : LatencyOracle) (addr : ℕ) : ℕ → CalibState → CalibState
  | 0, s => s
  | n + 1, s => calibLoop L addr n (calibIter L addr s)

/-- Calibration output, cache_timer.go lines 129-131; Go `float64` values
modelled as exact rationals. -/
structure CalibrationResult where
  hitAvg : ℚ
  missAvg : ℚ
  threshold : ℚ

/-- cache_timer.go lines 106-131: run the calibration loop from zero sums,
then `hitAvg = hitSum/samples`, `missAvg = missSum/samples`,
`threshold = (hitAvg+missAvg)/2`. -/
def calibrate (L : LatencyOracle) (m : Machine) (addr samples : ℕ) :
    CalibState × CalibrationResult :=
  let s := calibLoop L addr samples ⟨m, 0, 0⟩
  let hitAvg : ℚ := (s.hitSum : ℚ) / (samples : ℚ)
  let missAvg : ℚ := (s.missSum : ℚ) / (samples : ℚ)
  (s, ⟨hitAvg, missAvg, (hitAvg + missAvg) / 2⟩)

/-- cache_timer.go line 169, `wasAccessed := timing < threshold`: the
classification of a measured duration against the calibrated threshold. -/
def classify (d t : ℚ) : Bool := d < t

/-- One probe of the detection loop body, cache_timer.go lines 156-166:
flush, dsb, victim turn, then the timed reload; returns the `uint32`
cycle duration and the resulting machine. -/
def probeLine (L : LatencyOracle) (m : Machine) (addr : ℕ) (shouldAccess : Bool) :
    ℕ × Machine :=
  let m1 := dsb (flushDataCache m)
  let m2 := simulateVictimAccess L m1 addr shouldAccess
  let start := readPMUCycleCounter m2
  let m3 := (accessByte L m2 addr).2
  let endc := readPMUCycleCounter m3
  (sub32 endc start, m3)

/-- The detection loop, cache_timer.go lines 152-179: for each line in
order, probe `base + line*lineSize` with the victim following the pattern,
and store `classify duration threshold`. -/
def detectLoop (L : LatencyOracle) (t : ℚ) (base lineSize : ℕ) :
    List Bool → ℕ → Machine → List Bool × Machine
  | [], _, m => ([], m)
  | b :: rest, line, m =>
      let r := probeLine L m (base + line * lineSize) b
      let tail := detectLoop L t base lineSize rest (line + 1) r.2
      (classify (r.1 : ℚ) t :: tail.1, tail.2)

/-- Accuracy report, cache_timer.go lines 182-190; `percentage` is the Go
`float64` value modelled as an exact rational. -/
structure AccuracyReport where
  correct : ℕ
  total : ℕ
  percentage : ℚ

/-- cache_timer.go lines 182-187: count the indices where detection matches
the ground-truth pattern (both sequences have the same length in the
program). -/
def countCorrect : List Bool → List Bool → ℕ
  | d :: ds, p :: ps => (if d = p then 1 else 0) + countCorrect ds ps
  | _, _ => 0

/-- cache_timer.go lines 182-188: the report over `n = numLines` lines,
`accuracy = correct / numLines * 100`. -/
def accuracyReport (detected pattern : List Bool) (n : ℕ) : AccuracyReport :=
  ⟨countCorrect detected pattern, n, (countCorrect detected pattern : ℚ) / (n : ℚ) * 100⟩

/-- The detection session of cache_timer.go lines 150-190 given a computed
threshold: run the detection loop from line 0 and derive the accuracy
report against the pattern. -/
def runSession (L : LatencyOracle) (t : ℚ) (m : Machine) (base lineSize : ℕ)
    (pattern : List Bool) : List Bool × AccuracyReport × Machine :=
  let d := detectLoop L t base lineSize pattern 0 m
  (d.1, accuracyReport d.1 pattern pattern.length, d.2)

/-- cache_timer.go lines 142-143: the ground-truth victim access
pattern. -/
def demoPattern : List Bool :=
  [true, false, true, true, false, false, true, false,
   true, false, false, true, true, false, true, false]

/-- cache_timer.go lines 94-101: the demo machine at session start — cold
cache, `target[i] = byte(i)` over the 16 cache lines of 32 bytes at base
address 0. -/
def demoMachine : Machine :=
  ⟨fun _ => false, fun a => if a < 512 then a % 256 else 0, 0, 0⟩

/-- The full demo pipeline of `CacheTimerDemo` under a deterministic latency
stub: calibrate with 100 samples on `&target[0]`, then run the 16-line
detection session with the calibrated threshold. -/
def cacheTimerDemo (hit miss : ℕ) :
    CalibrationResult × List Bool × AccuracyReport × Machine :=
  let c := calibrate (constLat hit miss) demoMachine 0 100
  let r := runSession (constLat hit miss) c.2.threshold c.1.m 0 32 demoPattern
  (c.2, r)

/-- Specification sequence: the durations the calibration loop measures in
its hit phase, for a loop of `n` iterations whose machine starts at read
index `r` (each iteration performs three reads; the hit-timed one is the
second, on an address just primed into the cache). -/
def hitDurations (L : LatencyOracle) (r : ℕ) : ℕ → List ℕ
  | 0 => []
  | n + 1 => L (r + 1) true :: hitDurations L (r + 3) n

/-- Specification sequence: the durations the calibration loop measures in
its miss phase (the third read of each iteration, on a just-flushed
address). -/
def missDurations (L : LatencyOracle) (r : ℕ) : ℕ → List ℕ
  | 0 => []
  | n + 1 => L (r + 2) false :: missDurations L (r + 3) n

/-- Primitive hardware operations, used to state the shape of each timed
measurement exactly as it is sequenced in the source. -/
inductive Op
  | readCounter
  | readMem (addr : ℕ)
  | barrier
  | flushCache
  deriving DecidableEq

/-- cache_timer.go lines 113-117, the calibration hit measurement: prime
read, dsb, counter read, target read, counter read. -/
def calibHitOps (addr : ℕ) : List Op :=
  [Op.readMem addr, Op.barrier, Op.readCounter, Op.readMem addr, Op.readCounter]

/-- cache_timer.go lines 121-125, the calibration miss measurement: flush,
dsb, counter read, target read, counter read. -/
def calibMissOps (addr : ℕ) : List Op :=
  [Op.flushCache, Op.barrier, Op.readCounter, Op.readMem addr, Op.readCounter]

/-- cache_timer.go lines 156-165, one body of the detection loop: flush,
dsb, the victim turn, counter read, target read, counter read. -/
def sessionReloadOps (addr : ℕ) (victim : Bool) : List Op :=
  [Op.flushCache, Op.barrier]
    ++ (if victim then [Op.readMem addr] else [])
    ++ [Op.readCounter, Op.readMem addr, Op.readCounter]

/-- cache_timer.go lines 36-54, `flushReload`: flush, dsb, busy wait (no
hardware operation), counter read, target read, dsb, counter read. -/
def flushReloadOps (addr : ℕ) : List Op :=
  [Op.flushCache, Op.barrier, Op.readCounter, Op.readMem addr, Op.barrier,
   Op.readCounter]

/-- Everything after the first counter read of a measurement sequence. -/
def afterFirstCounter : List Op → List Op
  | [] => []
  | Op.readCounter :: rest => rest
  | _ :: rest => afterFirstCounter rest

/-- Everything before the next counter read. -/
def beforeNextCounter : List Op → List Op
  | [] => []
  | Op.readCounter :: _ => []
  | o :: rest => o :: beforeNextCounter rest

/-- The operations strictly between the two counter reads of a measurement:
its timed window. -/
def timedWindow (ops : List Op) : List Op := beforeNextCounter (afterFirstCounter ops)

/-- A latency stub with a single wraparound-style outlier: the first miss
measurement of a calibration run (read index 2) takes 4294967295 cycles,
far beyond the plausible 200-cycle miss; every other uncached read takes
200 cycles and every cached read 10. -/
def outlierLat : LatencyOracle :=
  fun k cached => if cached then 10 else if k = 2 then 4294967295 else 200

/-- The measured duration of a timed access: the counter advanced by `lat`
cycles between the two 32-bit reads, and the `uint32` difference recovers
`lat` whenever `lat` fits in 32 bits, wrap of the 32-bit counter included. -/
theorem sub32_counter (c lat : ℕ) (h : lat < 4294967296) :
    sub32 ((c + lat) % 4294967296) (c % 4294967296) = lat := by
  unfold sub32
  omega

theorem accessByte_cached_self (L : LatencyOracle) (m : Machine) (addr : ℕ) :
    (accessByte L m addr).2.cached addr = true := by
  simp [accessByte]

/-- Characterization of one calibration iteration for any latency oracle
whose values fit in 32 bits: the hit measurement records the latency of
read index `reads+1` on a cached address, the miss measurement records the
latency of read index `reads+2` on an uncached address, three reads happen,
and memory is untouched. -/
theorem calibIter_spec (L : LatencyOracle) (addr : ℕ) (s : CalibState)
    (hL : ∀ k c, L k c < 4294967296) :
    (calibIter L addr s).hitSum
        = (s.hitSum + L (s.m.reads + 1) true) % 18446744073709551616
    ∧ (calibIter L addr s).missSum
        = (s.missSum + L (s.m.reads + 2) false) % 18446744073709551616
    ∧ (calibIter L addr s).m.reads = s.m.reads + 3
    ∧ (calibIter L addr s).m.mem = s.m.mem := by
  unfold calibIter
  refine ⟨?_, ?_, rfl, rfl⟩
  · simp only [accessByte, dsb, flushDataCache, readPMUCycleCounter, if_true]
    rw [sub32_counter _ _ (hL _ _)]
  · simp only [accessByte, dsb, flushDataCache, readPMUCycleCounter]
    rw [sub32_counter _ _ (hL _ _)]

/-- Characterization of the calibration loop for any latency oracle with
32-bit values: every per-sample duration of the hit phase is accumulated
(mod 2^64) into the hit sum, every per-sample duration of the miss phase
into the miss sum — none excluded, none flagged — the read index advances
by three per sample, and memory is untouched. -/
theorem calibLoop_spec (L : LatencyOracle) (addr : ℕ)
    (hL : ∀ k c, L k c < 4294967296) :
    ∀ (n : ℕ) (s : CalibState),
      s.hitSum < 18446744073709551616 → s.missSum < 18446744073709551616 →
      (calibLoop L addr n s).hitSum
          = (s.hitSum + (hitDurations L s.m.reads n).sum) % 18446744073709551616
      ∧ (calibLoop L addr n s).missSum
          = (s.missSum + (missDurations L s.m.reads n).sum) % 18446744073709551616
      ∧ (calibLoop L addr n s).m.reads = s.m.reads + 3 * n
      ∧ (calibLoop L addr n s).m.mem = s.m.mem := by
  intro n
  induction n with
  | zero =>
      intro s hh hm
      refine ⟨?_, ?_, rfl, rfl⟩
      · simp [calibLoop, hitDurations, Nat.mod_eq_of_lt hh]
      · simp [calibLoop, missDurations, Nat.mod_eq_of_lt hm]
  | succ n ih =>
      intro s hh hm
      obtain ⟨h1, h2, h3, h4⟩ := calibIter_spec L addr s hL
      have hh2 : (calibIter L addr s).hitSum < 18446744073709551616 := by
        rw [h1]; exact Nat.mod_lt _ (by norm_num)
      have hm2 : (calibIter L addr s).missSum < 18446744073709551616 := by
        rw [h2]; exact Nat.mod_lt _ (by norm_num)
      obtain ⟨g1, g2, g3, g4⟩ := ih (calibIter L addr s) hh2 hm2
      have hstep : calibLoop L addr (n + 1) s = calibLoop L addr n (calibIter L addr s) := rfl
      refine ⟨?_, ?_, ?_, ?_⟩
      · rw [hstep, g1, h1, h3, Nat.mod_add_mod, hitDurations, List.sum_cons, Nat.add_assoc]
      · rw [hstep, g2, h2, h3, Nat.mod_add_mod, missDurations, List.sum_cons, Nat.add_assoc]
      · rw [hstep, g3, h3]; ring
      · rw [hstep, g4, h4]

/-- A probe of the detection loop leaves memory unchanged, for any oracle. -/
theorem probeLine_mem (L : LatencyOracle) (m : Machine) (addr : ℕ) (b : Bool) :
    (probeLine L m addr b).2.mem = m.mem := by
  cases b <;>
    simp [probeLine, simulateVictimAccess, accessByte, dsb, flushDataCache]

/-- Under the deterministic stub, the measured reload duration of a probe is
`hit` when the victim accessed the line and `miss` when it did not —
independently of the machine state the probe starts from. -/
theorem probeLine_duration (hit miss : ℕ) (hh : hit < 4294967296)
    (hm : miss < 4294967296) (m : Machine) (addr : ℕ) (b : Bool) :
    (probeLine (constLat hit miss) m addr b).1 = if b then hit else miss := by
  cases b
  · simp only [probeLine, simulateVictimAccess, accessByte, dsb, flushDataCache,
      readPMUCycleCounter, constLat, Bool.false_eq_true, if_false]
    rw [sub32_counter _ _ hm]
  · simp only [probeLine, simulateVictimAccess, accessByte, dsb, flushDataCache,
      readPMUCycleCounter, constLat, if_true]
    rw [sub32_counter _ _ hh]

/-- Under the deterministic stub, the detection loop classifies each line
by `classify` of the stub latency of that line against the threshold — the
result list is `map` of a per-element function over the pattern, whatever
machine state and line offset the loop starts from. -/
theorem detectLoop_detected (hit miss : ℕ) (hh : hit < 4294967296)
    (hm : miss < 4294967296) (t : ℚ) (base lineSize : ℕ) :
    ∀ (p : List Bool) (line : ℕ) (m : Machine),
      (detectLoop (constLat hit miss) t base lineSize p line m).1
        = p.map (fun b => classify ((if b then hit else miss : ℕ) : ℚ) t) := by
  intro p
  induction p with
  | nil => intro line m; rfl
  | cons b rest ih =>
      intro line m
      simp only [detectLoop, List.map_cons]
      rw [probeLine_duration hit miss hh hm _ _ _, ih]

/-- The detection loop never writes memory, for any oracle and threshold. -/
theorem detectLoop_mem (L : LatencyOracle) (t : ℚ) (base lineSize : ℕ) :
    ∀ (p : List Bool) (line : ℕ) (m : Machine),
      (detectLoop L t base lineSize p line m).2.mem = m.mem := by
  intro p
  induction p with
  | nil => intro line m; rfl
  | cons b rest ih =>
      intro line m
      simp only [detectLoop]
      rw [ih, probeLine_mem]

theorem hitDurations_length (L : LatencyOracle) :
    ∀ (n r : ℕ), (hitDurations L r n).length = n := by
  intro n
  induction n with
  | zero => intro r; rfl
  | succ n ih => intro r; simp [hitDurations, ih]

theorem missDurations_length (L : LatencyOracle) :
    ∀ (n r : ℕ), (missDurations L r n).length = n := by
  intro n
  induction n with
  | zero => intro r; rfl
  | succ n ih => intro r; simp [missDurations, ih]

/-- Under the deterministic stub every hit-phase sample is `hit` cycles. -/
theorem hitDurations_constLat (hit miss : ℕ) :
    ∀ (n r : ℕ), (hitDurations (constLat hit miss) r n).sum = n * hit := by
  intro n
  induction n with
  | zero => intro r; simp [hitDurations]
  | succ n ih => intro r; simp [hitDurations, constLat, ih, Nat.succ_mul]; ring

/-- Under the deterministic stub every miss-phase sample is `miss` cycles. -/
theorem missDurations_constLat (hit miss : ℕ) :
    ∀ (n r : ℕ), (missDurations (constLat hit miss) r n).sum = n * miss := by
  intro n
  induction n with
  | zero => intro r; simp [missDurations]
  | succ n ih => intro r; simp [missDurations, constLat, ih, Nat.succ_mul]; ring

theorem hitDurations_sum_le (L : LatencyOracle) (hL : ∀ k c, L k c < 4294967296) :
    ∀ (n r : ℕ), (hitDurations L r n).sum ≤ n * 4294967295 := by
  intro n
  induction n with
  | zero => intro r; simp [hitDurations]
  | succ n ih =>
      intro r
      simp only [hitDurations, List.sum_cons, Nat.succ_mul]
      have h1 : L (r + 1) true ≤ 4294967295 := Nat.lt_succ_iff.mp (hL (r + 1) true)
      calc L (r + 1) true + (hitDurations L (r + 3) n).sum
          ≤ 4294967295 + n * 4294967295 := Nat.add_le_add h1 (ih (r + 3))
        _ = n * 4294967295 + 4294967295 := by ring

theorem missDurations_sum_le (L : LatencyOracle) (hL : ∀ k c, L k c < 4294967296) :
    ∀ (n r : ℕ), (missDurations L r n).sum ≤ n * 4294967295 := by
  intro n
  induction n with
  | zero => intro r; simp [missDurations]
  | succ n ih =>
      intro r
      simp only [missDurations, List.sum_cons, Nat.succ_mul]
      have h1 : L (r + 2) false ≤ 4294967295 := Nat.lt_succ_iff.mp (hL (r + 2) false)
      calc L (r + 2) false + (missDurations L (r + 3) n).sum
          ≤ 4294967295 + n * 4294967295 := Nat.add_le_add h1 (ih (r + 3))
        _ = n * 4294967295 + 4294967295 := by ring

/-- Indexing a mapped boolean list at a valid index. -/
theorem getD_map_at (f : Bool → Bool) :
    ∀ (l : List Bool) (i : ℕ), i < l.length →
      (l.map f).getD i false = f (l.getD i false) := by
  intro l
  induction l with
  | nil => intro i hi; simp at hi
  | cons b rest ih =>
      intro i hi
      cases i with
      | zero => rfl
      | succ i =>
          simp only [List.map_cons, List.getD_cons_succ]
          exact ih i (by simpa using hi)

/-- The count of matching positions computed by the accuracy pass equals
the number of indices below the common length where the two sequences
agree. -/
theorem countCorrect_eq_countP :
    ∀ (d p : List Bool), d.length = p.length →
      countCorrect d p
        = (List.range d.length).countP fun i => d.getD i false == p.getD i false := by
  intro d
  induction d with
  | nil => intro p hp; rfl
  | cons a d2 ih =>
      intro p hp
      cases p with
      | nil => simp at hp
      | cons b p2 =>
          have hlen : d2.length = p2.length := by simpa using hp
          have hcons : countCorrect (a :: d2) (b :: p2)
              = (if a = b then 1 else 0) + countCorrect d2 p2 := rfl
          rw [hcons, ih p2 hlen,
            List.length_cons, List.range_succ_eq_map, List.countP_cons, List.countP_map]
          have hc : (List.range d2.length).countP
              ((fun i => (a :: d2).getD i false == (b :: p2).getD i false) ∘ Nat.succ)
              = (List.range d2.length).countP
                (fun i => d2.getD i false == p2.getD i false) :=
            List.countP_congr (fun x _ => Iff.rfl)
          rw [hc]
          rcases Decidable.em (a = b) with h | h <;> simp [h, Nat.add_comm]

/-- C5: classification is the pure function of its two inputs: for all
durations d and thresholds t, `classify d t` decides exactly `d < t`; being
a function of d and t alone, it has no side effects and returns the same
result on every call with the same inputs. -/
theorem c5_classify_pure (d t : ℚ) :
    (classify d t = true ↔ d < t) ∧ classify d t = decide (d < t) :=
  ⟨decide_eq_true_iff, rfl⟩

/-- C9: the detection session leaves the target buffer unchanged — after
the session, every byte of machine memory holds the value it held at
session start, for every pattern, threshold, oracle and machine (the
pattern, passed by value, is immutable by construction); only the
detection list and the report are produced. -/
theorem c9_session_frame (L : LatencyOracle) (t : ℚ) (m : Machine)
    (base lineSize : ℕ) (pattern : List Bool) (a : ℕ) :
    (runSession L t m base lineSize pattern).2.2.mem a = m.mem a := by
  show (detectLoop L t base lineSize pattern 0 m).2.mem a = m.mem a
  rw [detectLoop_mem]

/-- C3: for a detection result and pattern of equal length N, the field
`correct` is the number of indices below N where the two sequences agree,
`total` is N, and `percentage` is correct/total*100 (exactly, in the
rational model of float64). -/
theorem c3_accuracy_report (detected pattern : List Bool) (n : ℕ)
    (hd : detected.length = n) (hp : pattern.length = n) :
    (accuracyReport detected pattern n).correct
        = (List.range n).countP
            (fun i => detected.getD i false == pattern.getD i false)
    ∧ (accuracyReport detected pattern n).total = n
    ∧ (accuracyReport detected pattern n).percentage
        = ((accuracyReport detected pattern n).correct : ℚ) / (n : ℚ) * 100 := by
  refine ⟨?_, rfl, rfl⟩
  have h1 : (accuracyReport detected pattern n).correct
      = countCorrect detected pattern := rfl
  rw [h1, countCorrect_eq_countP detected pattern (hd.trans hp.symm), hd]

theorem c3_witness :
    ([true, false] : List Bool).length = 2
    ∧ ([true, true] : List Bool).length = 2
    ∧ ((accuracyReport [true, false] [true, true] 2).correct
        = (List.range 2).countP
            (fun i => ([true, false] : List Bool).getD i false
              == ([true, true] : List Bool).getD i false)
      ∧ (accuracyReport [true, false] [true, true] 2).total = 2
      ∧ (accuracyReport [true, false] [true, true] 2).percentage
        = ((accuracyReport [true, false] [true, true] 2).correct : ℚ)
            / ((2 : ℕ) : ℚ) * 100) :=
  ⟨by decide, by decide,
    c3_accuracy_report [true, false] [true, true] 2 (by decide) (by decide)⟩

/-- C2: for samples ≥ 1 and any 32-bit latency oracle, calibration
accumulates exactly `samples` hit-phase durations into the hit sum and
`samples` miss-phase durations into the miss sum, and returns
averageHit = hitSum/samples ≥ 0, averageMiss = missSum/samples ≥ 0 and
threshold = (averageHit + averageMiss)/2 exactly. -/
theorem c2_calibrate (L : LatencyOracle) (m : Machine) (addr samples : ℕ)
    (hL : ∀ k c, L k c < 4294967296) (_hs : 1 ≤ samples) :
    (calibrate L m addr samples).1.hitSum
        = (hitDurations L m.reads samples).sum % 18446744073709551616
    ∧ (calibrate L m addr samples).1.missSum
        = (missDurations L m.reads samples).sum % 18446744073709551616
    ∧ (hitDurations L m.reads samples).length = samples
    ∧ (missDurations L m.reads samples).length = samples
    ∧ (calibrate L m addr samples).2.hitAvg
        = ((calibrate L m addr samples).1.hitSum : ℚ) / (samples : ℚ)
    ∧ (calibrate L m addr samples).2.missAvg
        = ((calibrate L m addr samples).1.missSum : ℚ) / (samples : ℚ)
    ∧ 0 ≤ (calibrate L m addr samples).2.hitAvg
    ∧ 0 ≤ (calibrate L m addr samples).2.missAvg
    ∧ (calibrate L m addr samples).2.threshold
        = ((calibrate L m addr samples).2.hitAvg
            + (calibrate L m addr samples).2.missAvg) / 2 := by
  obtain ⟨h1, h2, h3, h4⟩ :=
    calibLoop_spec L addr hL samples ⟨m, 0, 0⟩ (by norm_num) (by norm_num)
  refine ⟨by simpa using h1, by simpa using h2, hitDurations_length L samples m.reads,
    missDurations_length L samples m.reads, rfl, rfl, ?_, ?_, rfl⟩
  · show (0 : ℚ) ≤ ((calibLoop L addr samples ⟨m, 0, 0⟩).hitSum : ℚ) / (samples : ℚ)
    exact div_nonneg (Nat.cast_nonneg _) (Nat.cast_nonneg _)
  · show (0 : ℚ) ≤ ((calibLoop L addr samples ⟨m, 0, 0⟩).missSum : ℚ) / (samples : ℚ)
    exact div_nonneg (Nat.cast_nonneg _) (Nat.cast_nonneg _)

theorem c2_witness :
    (∀ k c, constLat 10 200 k c < 4294967296) ∧ 1 ≤ 2
    ∧ ((calibrate (constLat 10 200) demoMachine 0 2).2.threshold
        = ((calibrate (constLat 10 200) demoMachine 0 2).2.hitAvg
            + (calibrate (constLat 10 200) demoMachine 0 2).2.missAvg) / 2) :=
  have hL : ∀ k c, constLat 10 200 k c < 4294967296 := by
    intro k c
    cases c
    · show (200 : ℕ) < 4294967296
      decide
    · show (10 : ℕ) < 4294967296
      decide
  ⟨hL, by decide,
    (c2_calibrate (constLat 10 200) demoMachine 0 2 hL
      (by decide)).2.2.2.2.2.2.2.2⟩

/-- C1: under a deterministic stub, the detection session produces one
boolean per pattern index, and the result at each index i equals the
classification, against the threshold, of the reload duration that a
flush → victim-turn `simulateVictimAccess(lineAddr, pattern[i])` → timed
reload probe of the starting address of line i (buffer start + i*lineSize)
measures — from any machine state, so DetectionResult is paired 1:1 with
AccessPattern by index. -/
theorem c1_session_pairing (hit miss : ℕ) (hh : hit < 4294967296)
    (hm : miss < 4294967296) (t : ℚ) (base lineSize : ℕ) (m mp : Machine)
    (pattern : List Bool) (i : ℕ) (hi : i < pattern.length) :
    (runSession (constLat hit miss) t m base lineSize pattern).1.length
        = pattern.length
    ∧ (runSession (constLat hit miss) t m base lineSize pattern).1.getD i false
        = classify (((probeLine (constLat hit miss) mp (base + i * lineSize)
            (pattern.getD i false)).1 : ℕ) : ℚ) t := by
  have hdet : (runSession (constLat hit miss) t m base lineSize pattern).1
      = pattern.map (fun b => classify ((if b then hit else miss : ℕ) : ℚ) t) :=
    detectLoop_detected hit miss hh hm t base lineSize pattern 0 m
  constructor
  · rw [hdet, List.length_map]
  · rw [hdet, getD_map_at _ pattern i hi,
      probeLine_duration hit miss hh hm mp (base + i * lineSize)
        (pattern.getD i false)]

theorem c1_witness :
    (10 : ℕ) < 4294967296 ∧ (200 : ℕ) < 4294967296 ∧ 3 < demoPattern.length
    ∧ ((runSession (constLat 10 200) 105 demoMachine 0 32 demoPattern).1.length
          = demoPattern.length
      ∧ (runSession (constLat 10 200) 105 demoMachine 0 32 demoPattern).1.getD 3
            false
          = classify (((probeLine (constLat 10 200) demoMachine (0 + 3 * 32)
              (demoPattern.getD 3 false)).1 : ℕ) : ℚ) 105) :=
  ⟨by decide, by decide, by decide,
    c1_session_pairing 10 200 (by decide) (by decide) 105 0 32 demoMachine
      demoMachine demoPattern 3 (by decide)⟩

/-- C8: lines are processed independently — under a deterministic stub the
detection result at index i is a function of pattern[i] and the threshold
alone: two runs whose patterns agree at i produce the same result at i,
whatever the other entries, the buffer bases, the line sizes or the
starting machine states (and hence the outcomes of all earlier probes)
are. -/
theorem c8_line_independence (hit miss : ℕ) (hh : hit < 4294967296)
    (hm : miss < 4294967296) (t : ℚ) (base1 lineSize1 base2 lineSize2 : ℕ)
    (m1 m2 : Machine) (p q : List Bool) (i : ℕ)
    (hip : i < p.length) (hiq : i < q.length)
    (hpq : p.getD i false = q.getD i false) :
    (runSession (constLat hit miss) t m1 base1 lineSize1 p).1.getD i false
      = (runSession (constLat hit miss) t m2 base2 lineSize2 q).1.getD i false := by
  have h1 := detectLoop_detected hit miss hh hm t base1 lineSize1 p 0 m1
  have h2 := detectLoop_detected hit miss hh hm t base2 lineSize2 q 0 m2
  show (detectLoop (constLat hit miss) t base1 lineSize1 p 0 m1).1.getD i false
      = (detectLoop (constLat hit miss) t base2 lineSize2 q 0 m2).1.getD i false
  rw [h1, h2, getD_map_at _ p i hip, getD_map_at _ q i hiq, hpq]

theorem c8_witness :
    (10 : ℕ) < 4294967296 ∧ (200 : ℕ) < 4294967296
    ∧ 1 < ([true, true, false] : List Bool).length
    ∧ 1 < ([false, true, true, false] : List Bool).length
    ∧ ([true, true, false] : List Bool).getD 1 false
        = ([false, true, true, false] : List Bool).getD 1 false
    ∧ (runSession (constLat 10 200) 105 demoMachine 0 32 [true, true, false]).1.getD
          1 false
      = (runSession (constLat 10 200) 105 demoMachine 64 16
          [false, true, true, false]).1.getD 1 false :=
  ⟨by decide, by decide, by decide, by decide, by decide,
    c8_line_independence 10 200 (by decide) (by decide) 105 0 32 64 16
      demoMachine demoMachine [true, true, false] [false, true, true, false] 1
      (by decide) (by decide) (by decide)⟩

/-- C6 as stated is false: in the calibration hit and miss measurements
and in the reload measurement of the session, no barrier occurs between the two
counter reads — the dsb is issued before the first counter read.  Shown on
the concrete measurement sequences at address 0 (only the `flushReload`
helper, which the session loop does not call, has a barrier inside its
timed window). -/
theorem c6_counterexample :
    (timedWindow (calibHitOps 0)).count Op.barrier = 0
    ∧ (timedWindow (calibMissOps 0)).count Op.barrier = 0
    ∧ (timedWindow (sessionReloadOps 0 true)).count Op.barrier = 0
    ∧ (timedWindow (sessionReloadOps 0 false)).count Op.barrier = 0
    ∧ (timedWindow (flushReloadOps 0)).count Op.barrier = 1 := by
  decide

/-- C6 amended: every timed measurement of the protocol reads the counter,
performs exactly one memory read of the target address between the two
counter reads, and returns the 32-bit difference; the barrier precedes the
first counter read in the calibration and session measurements (their
timed window is exactly the single target read), and only `flushReload`
issues a barrier inside the timed window. -/
theorem c6_amended_timed_access (addr : ℕ) (victim : Bool) :
    timedWindow (calibHitOps addr) = [Op.readMem addr]
    ∧ timedWindow (calibMissOps addr) = [Op.readMem addr]
    ∧ timedWindow (sessionReloadOps addr victim) = [Op.readMem addr]
    ∧ timedWindow (flushReloadOps addr) = [Op.readMem addr, Op.barrier]
    ∧ (calibHitOps addr).take 2 = [Op.readMem addr, Op.barrier]
    ∧ (calibMissOps addr).take 2 = [Op.flushCache, Op.barrier]
    ∧ (sessionReloadOps addr victim).take 2 = [Op.flushCache, Op.barrier] := by
  cases victim <;> exact ⟨rfl, rfl, rfl, rfl, rfl, rfl, rfl⟩

/-- C7 as stated is false: with a single wraparound-style outlier — the
first of two calibration miss samples takes 4294967295 cycles, far beyond
the plausible 200-cycle miss — the outlier is silently accumulated in full
into the miss sum and enters the miss average; nothing is excluded or
flagged. -/
theorem c7_counterexample :
    (calibrate outlierLat demoMachine 0 2).1.missSum = 4294967295 + 200
    ∧ (calibrate outlierLat demoMachine 0 2).2.missAvg
        = ((4294967295 + 200 : ℕ) : ℚ) / ((2 : ℕ) : ℚ) := by
  constructor
  · decide
  · show ((calibLoop outlierLat 0 2 ⟨demoMachine, 0, 0⟩).missSum : ℚ)
        / ((2 : ℕ) : ℚ) = ((4294967295 + 200 : ℕ) : ℚ) / ((2 : ℕ) : ℚ)
    have h : (calibLoop outlierLat 0 2 ⟨demoMachine, 0, 0⟩).missSum
        = 4294967295 + 200 := by decide
    rw [h]

/-- C7 amended: calibration performs no outlier handling at all — for any
latency oracle, every per-sample duration, whatever its magnitude, is
accumulated unconditionally into its sum (the result carries no flag
field), so an implausible outlier is silently averaged in. -/
theorem c7_amended_no_outlier_filter (L : LatencyOracle) (m : Machine)
    (addr samples : ℕ) (hL : ∀ k c, L k c < 4294967296) :
    (calibrate L m addr samples).1.missSum
        = (missDurations L m.reads samples).sum % 18446744073709551616
    ∧ (calibrate L m addr samples).1.hitSum
        = (hitDurations L m.reads samples).sum % 18446744073709551616 := by
  obtain ⟨h1, h2, h3, h4⟩ :=
    calibLoop_spec L addr hL samples ⟨m, 0, 0⟩ (by norm_num) (by norm_num)
  exact ⟨by simpa using h2, by simpa using h1⟩

theorem c7_witness :
    (∀ k c, outlierLat k c < 4294967296)
    ∧ ((calibrate outlierLat demoMachine 0 2).1.missSum
          = (missDurations outlierLat demoMachine.reads 2).sum
              % 18446744073709551616
      ∧ (calibrate outlierLat demoMachine 0 2).1.hitSum
          = (hitDurations outlierLat demoMachine.reads 2).sum
              % 18446744073709551616) :=
  have hL : ∀ k c, outlierLat k c < 4294967296 := by
    intro k c
    cases c
    · show (if k = 2 then 4294967295 else 200) < 4294967296
      split <;> decide
    · show (10 : ℕ) < 4294967296
      decide
  ⟨hL, c7_amended_no_outlier_filter outlierLat demoMachine 0 2 hL⟩

/-- C10: every measured duration is the 32-bit unsigned difference of the
two counter reads — `sub32` is exactly (end − start) mod 2^32 as an
integer, it recovers the elapsed cycles even across a 32-bit counter wrap,
and a wrapped pair yields the large positive value 2^32 − (start − end),
never a negative; in calibration each duration is widened before
accumulation, and the sums of the configured 100 samples of 32-bit
durations stay below 2^64, so the uint64 accumulation never overflows. -/
theorem c10_unsigned_durations (e s c lat : ℕ) (he : e < 4294967296)
    (hs : s < 4294967296) (hlat : lat < 4294967296)
    (L : LatencyOracle) (m : Machine) (addr : ℕ)
    (hL : ∀ k b, L k b < 4294967296) :
    ((sub32 e s : ℤ) = ((e : ℤ) - (s : ℤ)) % 4294967296)
    ∧ (e < s → sub32 e s = 4294967296 - (s - e) ∧ 0 < sub32 e s)
    ∧ sub32 ((c + lat) % 4294967296) (c % 4294967296) = lat
    ∧ (calibrate L m addr 100).1.hitSum = (hitDurations L m.reads 100).sum
    ∧ (calibrate L m addr 100).1.missSum = (missDurations L m.reads 100).sum
    ∧ (hitDurations L m.reads 100).sum < 18446744073709551616
    ∧ (missDurations L m.reads 100).sum < 18446744073709551616 := by
  have hhb : (hitDurations L m.reads 100).sum < 18446744073709551616 :=
    lt_of_le_of_lt (hitDurations_sum_le L hL 100 m.reads) (by norm_num)
  have hmb : (missDurations L m.reads 100).sum < 18446744073709551616 :=
    lt_of_le_of_lt (missDurations_sum_le L hL 100 m.reads) (by norm_num)
  obtain ⟨h1, h2, h3, h4⟩ :=
    calibLoop_spec L addr hL 100 ⟨m, 0, 0⟩ (by norm_num) (by norm_num)
  refine ⟨?_, ?_, sub32_counter c lat hlat, ?_, ?_, hhb, hmb⟩
  · unfold sub32
    omega
  · intro hes
    unfold sub32
    omega
  · calc (calibrate L m addr 100).1.hitSum
        = (hitDurations L m.reads 100).sum % 18446744073709551616 := by
          simpa using h1
      _ = (hitDurations L m.reads 100).sum := Nat.mod_eq_of_lt hhb
  · calc (calibrate L m addr 100).1.missSum
        = (missDurations L m.reads 100).sum % 18446744073709551616 := by
          simpa using h2
      _ = (missDurations L m.reads 100).sum := Nat.mod_eq_of_lt hmb

theorem c10_witness :
    (5 : ℕ) < 4294967296 ∧ (4294967290 : ℕ) < 4294967296
    ∧ (7 : ℕ) < 4294967296 ∧ (∀ k b, constLat 9 199 k b < 4294967296)
    ∧ (((sub32 5 4294967290 : ℤ) = ((5 : ℤ) - (4294967290 : ℤ)) % 4294967296)
      ∧ ((5 : ℕ) < 4294967290 →
          sub32 5 4294967290 = 4294967296 - (4294967290 - 5)
          ∧ 0 < sub32 5 4294967290)
      ∧ sub32 ((1 + 7) % 4294967296) (1 % 4294967296) = 7
      ∧ (calibrate (constLat 9 199) demoMachine 0 100).1.hitSum
          = (hitDurations (constLat 9 199) demoMachine.reads 100).sum
      ∧ (calibrate (constLat 9 199) demoMachine 0 100).1.missSum
          = (missDurations (constLat 9 199) demoMachine.reads 100).sum
      ∧ (hitDurations (constLat 9 199) demoMachine.reads 100).sum
          < 18446744073709551616
      ∧ (missDurations (constLat 9 199) demoMachine.reads 100).sum
          < 18446744073709551616) :=
  have hL : ∀ k b, constLat 9 199 k b < 4294967296 := by
    intro k b
    cases b
    · show (199 : ℕ) < 4294967296
      decide
    · show (9 : ℕ) < 4294967296
      decide
  ⟨by decide, by decide, by decide, hL,
    c10_unsigned_durations 5 4294967290 1 7 (by decide) (by decide) (by decide)
      (constLat 9 199) demoMachine 0 hL⟩

/-- C4: under the deterministic stub where a victim-accessed line reloads
in 10 cycles and a non-accessed line in 200 cycles, with the 16 demo
lines and pattern [T,F,T,T,F,F,T,F,T,F,F,T,T,F,T,F], the calibrated
threshold is 105, the detection result equals the input pattern exactly,
and the accuracy report is correct = 16, total = 16, percentage = 100. -/
theorem c4_demo_scenario :
    (cacheTimerDemo 10 200).1.threshold = 105
    ∧ (cacheTimerDemo 10 200).2.1 = demoPattern
    ∧ (cacheTimerDemo 10 200).2.2.1.correct = 16
    ∧ (cacheTimerDemo 10 200).2.2.1.total = 16
    ∧ (cacheTimerDemo 10 200).2.2.1.percentage = 100 := by
  have hL : ∀ k c, constLat 10 200 k c < 4294967296 := by
    intro k c
    cases c
    · show (200 : ℕ) < 4294967296
      decide
    · show (10 : ℕ) < 4294967296
      decide
  obtain ⟨h1, h2, h3, h4⟩ :=
    calibLoop_spec (constLat 10 200) 0 hL 100 ⟨demoMachine, 0, 0⟩
      (by norm_num) (by norm_num)
  rw [hitDurations_constLat] at h1
  rw [missDurations_constLat] at h2
  norm_num at h1 h2
  have hthr : (calibrate (constLat 10 200) demoMachine 0 100).2.threshold = 105 := by
    show (((calibLoop (constLat 10 200) 0 100 ⟨demoMachine, 0, 0⟩).hitSum : ℚ)
          / ((100 : ℕ) : ℚ)
        + ((calibLoop (constLat 10 200) 0 100 ⟨demoMachine, 0, 0⟩).missSum : ℚ)
          / ((100 : ℕ) : ℚ)) / 2 = 105
    rw [h1, h2]
    norm_num
  have hdet : (cacheTimerDemo 10 200).2.1 = demoPattern := by
    show (detectLoop (constLat 10 200)
        (calibrate (constLat 10 200) demoMachine 0 100).2.threshold 0 32
        demoPattern 0 (calibrate (constLat 10 200) demoMachine 0 100).1.m).1
        = demoPattern
    rw [hthr, detectLoop_detected 10 200 (by decide) (by decide) 105 0 32
      demoPattern 0 (calibrate (constLat 10 200) demoMachine 0 100).1.m]
    norm_num [demoPattern, classify]
  have hcor : (cacheTimerDemo 10 200).2.2.1.correct = 16 := by
    show countCorrect (cacheTimerDemo 10 200).2.1 demoPattern = 16
    rw [hdet]
    decide
  have hpct : (cacheTimerDemo 10 200).2.2.1.percentage = 100 := by
    show (countCorrect (cacheTimerDemo 10 200).2.1 demoPattern : ℚ)
        / ((demoPattern.length : ℕ) : ℚ) * 100 = 100
    rw [hdet]
    have hc : countCorrect demoPattern demoPattern = 16 := by decide
    have hl : demoPattern.length = 16 := by decide
    rw [hc, hl]
    norm_num
  exact ⟨hthr, hdet, hcor, rfl, hpct⟩

end CacheTimer
